import Mathlib

/-!
Verification of the local-tractography stopping-criterion core described by
the dipy.org example scripts (tissue classifiers, streamline tracker, and
tracking engine).  The classifier variants, volume sampler and tracker are
library components whose code is not part of this repository; they are
modelled here from the specification.  The include-map construction of the
ACT example is embedded directly from
`doc/examples/tracking_tissue_classifier.py`.
-/

namespace Tracking

/-- A point in continuous 3D voxel-index space.  Coordinates are modelled as
rationals (the scripts use floating point; the properties at stake are
order/arithmetic facts independent of rounding). -/
structure Pos where
  x : ℚ
  y : ℚ
  z : ℚ
  deriving DecidableEq, Repr

/-- A unit propagation direction (unit-ness is irrelevant to the claims). -/
structure Dir where
  dx : ℚ
  dy : ℚ
  dz : ℚ
  deriving DecidableEq, Repr

/-- Modelled from the spec: a `ScalarField / VolumeMap`, a 3D grid of values
plus its dimensions (the dipy field type is not in this repository). Grid
data is a total function; bounds are tracked separately by `inBounds`. -/
structure Field where
  dimx : ℕ
  dimy : ℕ
  dimz : ℕ
  data : ℕ → ℕ → ℕ → ℚ

/-- Modelled from the spec: a boolean mask field for the Binary classifier
(the dipy mask type is not in this repository). -/
structure Mask where
  dimx : ℕ
  dimy : ℕ
  dimz : ℕ
  data : ℕ → ℕ → ℕ → Bool

/-- Modelled from the spec: the bounds test of `VolumeSampler` — a position
is in bounds iff every coordinate lies in `[0, dim_i - 1]` (interpolation
requires neighboring grid cells to exist). -/
def inBounds (f : Field) (p : Pos) : Bool :=
  decide (0 ≤ p.x ∧ p.x ≤ (f.dimx : ℚ) - 1 ∧
          0 ≤ p.y ∧ p.y ≤ (f.dimy : ℚ) - 1 ∧
          0 ≤ p.z ∧ p.z ≤ (f.dimz : ℚ) - 1)

/-- Modelled from the spec: the bounds test for a mask field, same
convention as `inBounds`. -/
def maskInBounds (m : Mask) (p : Pos) : Bool :=
  decide (0 ≤ p.x ∧ p.x ≤ (m.dimx : ℚ) - 1 ∧
          0 ≤ p.y ∧ p.y ≤ (m.dimy : ℚ) - 1 ∧
          0 ≤ p.z ∧ p.z ≤ (m.dimz : ℚ) - 1)

/-- A position strictly inside the field bounds: every coordinate strictly
between `0` and `dim_i - 1`. -/
def strictlyInside (f : Field) (p : Pos) : Prop :=
  0 < p.x ∧ p.x < (f.dimx : ℚ) - 1 ∧
  0 < p.y ∧ p.y < (f.dimy : ℚ) - 1 ∧
  0 < p.z ∧ p.z < (f.dimz : ℚ) - 1

/-- Linear interpolation between `a` and `b` with weight `t`. -/
def lerp (t a b : ℚ) : ℚ := (1 - t) * a + t * b

/-- Integer cell index below a coordinate. -/
def cellIdx (q : ℚ) : ℕ := (⌊q⌋).toNat

/-- Fractional offset of a coordinate inside its cell. -/
def frac (q : ℚ) : ℚ := q - ⌊q⌋

/-- Modelled from the spec: trilinear interpolation of a field at a
continuous position (the dipy interpolator is not in this repository).
The upper corner index is clamped to the last cell so that a position on
the upper face reads no cell outside the grid (its weight is zero there). -/
def trilinear (f : Field) (p : Pos) : ℚ :=
  let x0 := cellIdx p.x
  let y0 := cellIdx p.y
  let z0 := cellIdx p.z
  let x1 := min (x0 + 1) (f.dimx - 1)
  let y1 := min (y0 + 1) (f.dimy - 1)
  let z1 := min (z0 + 1) (f.dimz - 1)
  lerp (frac p.x)
    (lerp (frac p.y)
      (lerp (frac p.z) (f.data x0 y0 z0) (f.data x0 y0 z1))
      (lerp (frac p.z) (f.data x0 y1 z0) (f.data x0 y1 z1)))
    (lerp (frac p.y)
      (lerp (frac p.z) (f.data x1 y0 z0) (f.data x1 y0 z1))
      (lerp (frac p.z) (f.data x1 y1 z0) (f.data x1 y1 z1)))

/-- Nearest grid index of a coordinate (round half up). -/
def nearestIdx (q : ℚ) : ℕ := (⌊q + 1/2⌋).toNat

/-- Modelled from the spec: nearest-neighbor lookup of a mask at a
continuous position (the dipy interpolator is not in this repository). -/
def nearest (m : Mask) (p : Pos) : Bool :=
  m.data (nearestIdx p.x) (nearestIdx p.y) (nearestIdx p.z)

/-- Modelled from the spec: `VolumeSampler.sample` — returns the trilinearly
interpolated value when the position is in bounds and no value otherwise
(`in_bounds = false` is signaled by `none`, never by an exception). -/
def sample (f : Field) (p : Pos) : Option ℚ :=
  if inBounds f p then some (trilinear f p) else none

/-- The four mutually exclusive stopping states of a tracking position. -/
inductive StoppingState where
  | ENDPOINT
  | OUTSIDEIMAGE
  | TRACKPOINT
  | INVALIDPOINT
  deriving DecidableEq, Repr

open StoppingState

/-- Modelled from the spec: `ThresholdTissueClassifier.classify` —
`OUTSIDEIMAGE` out of bounds, else `ENDPOINT` when the interpolated value is
below the cutoff, else `TRACKPOINT` (the dipy classifier code is not in this
repository). -/
def thresholdClassify (metricMap : Field) (threshold : ℚ) (p : Pos) :
    StoppingState :=
  if inBounds metricMap p then
    if trilinear metricMap p < threshold then ENDPOINT else TRACKPOINT
  else OUTSIDEIMAGE

/-- Modelled from the spec: `BinaryTissueClassifier.classify` —
`OUTSIDEIMAGE` out of bounds, else `ENDPOINT` when the mask is false at the
nearest-neighbor cell, else `TRACKPOINT` (the dipy classifier code is not in
this repository). -/
def binaryClassify (mask : Mask) (p : Pos) : StoppingState :=
  if maskInBounds mask p then
    if nearest mask p then TRACKPOINT else ENDPOINT
  else OUTSIDEIMAGE

/-- Modelled from the spec: `ActTissueClassifier.classify` — `OUTSIDEIMAGE`
if either map is out of bounds, else `INVALIDPOINT` when the exclude map
interpolates above 0.5, else `ENDPOINT` when the include map interpolates
above 0.5, else `TRACKPOINT` (the dipy classifier code is not in this
repository). -/
def actClassify (includeMap excludeMap : Field) (p : Pos) : StoppingState :=
  if inBounds includeMap p && inBounds excludeMap p then
    if 1/2 < trilinear excludeMap p then INVALIDPOINT
    else if 1/2 < trilinear includeMap p then ENDPOINT
    else TRACKPOINT
  else OUTSIDEIMAGE

/-- The position at the center of an integer voxel. -/
def voxelPos (i j k : ℕ) : Pos := ⟨(i : ℚ), (j : ℚ), (k : ℚ)⟩

/-- Modelled from the spec: the fixed per-run tracking configuration — step
size, hard iteration cap, the active stopping criterion and the opaque
direction source (the dipy `LocalTracking` internals are not in this
repository). -/
structure TrackerConfig where
  stepSize : ℚ
  maxIter : ℕ
  classify : Pos → StoppingState
  dirSrc : Pos → Dir → Option Dir

/-- Advance a position by one Euler integration step along a direction. -/
def advance (p : Pos) (stepSize : ℚ) (d : Dir) : Pos :=
  ⟨p.x + stepSize * d.dx, p.y + stepSize * d.dy, p.z + stepSize * d.dz⟩

/-- The per-direction tracker is either still propagating or has halted for
a recorded stopping reason. -/
inductive TrackerStatus where
  | ACTIVE
  | HALTED (reason : StoppingState)
  deriving DecidableEq, Repr

/-- The full state of a per-direction tracker run: current position and
direction, the points appended so far, the remaining iteration budget, and
the machine status. -/
structure MachineState where
  pos : Pos
  dir : Dir
  points : List Pos
  fuel : ℕ
  status : TrackerStatus
  deriving DecidableEq, Repr

open TrackerStatus

/-- Modelled from the spec: one transition of the per-direction
`StreamlineTracker` state machine.  A halted state is final.  From
`ACTIVE`: an exhausted iteration budget forces `HALTED TRACKPOINT`; an
absent direction yields `HALTED TRACKPOINT` with no point appended; else
the position advances, is classified, the new point is appended, and the
machine stays `ACTIVE` only on `TRACKPOINT`. -/
def machineStep (cfg : TrackerConfig) (s : MachineState) : MachineState :=
  match s.status with
  | HALTED _ => s
  | ACTIVE =>
    match s.fuel with
    | 0 => { s with status := HALTED TRACKPOINT }
    | fuel + 1 =>
      match cfg.dirSrc s.pos s.dir with
      | none => { s with status := HALTED TRACKPOINT }
      | some d =>
        match cfg.classify (advance s.pos cfg.stepSize d) with
        | TRACKPOINT =>
          ⟨advance s.pos cfg.stepSize d, d,
           s.points ++ [advance s.pos cfg.stepSize d], fuel, ACTIVE⟩
        | st =>
          ⟨advance s.pos cfg.stepSize d, d,
           s.points ++ [advance s.pos cfg.stepSize d], fuel, HALTED st⟩

/-- The initial per-direction machine state for a seed. -/
def initState (cfg : TrackerConfig) (pos : Pos) (dir : Dir) : MachineState :=
  ⟨pos, dir, [], cfg.maxIter, ACTIVE⟩

/-- Modelled from the spec: a complete per-direction tracker run — the
machine stepped until it must have halted (the budget bounds the number of
productive steps, so `maxIter + 1` transitions always reach a halt). -/
def runDir (cfg : TrackerConfig) (pos : Pos) (dir : Dir) : MachineState :=
  (machineStep cfg)^[cfg.maxIter + 1] (initState cfg pos dir)

/-- The negation of a direction, used for the backward pass. -/
def Dir.neg (d : Dir) : Dir := ⟨-d.dx, -d.dy, -d.dz⟩

/-- The outcome of tracking one seed: the concatenated streamline and the
terminations of the two passes. -/
structure SeedResult where
  points : List Pos
  fwdTerm : StoppingState
  bwdTerm : StoppingState
  deriving DecidableEq, Repr

/-- The stopping reason recorded by a finished machine (`TRACKPOINT` is
also what a forced halt records, so an `ACTIVE` state cannot occur after
`runDir`; it is mapped to `TRACKPOINT` for totality). -/
def termOf (s : MachineState) : StoppingState :=
  match s.status with
  | HALTED r => r
  | ACTIVE => TRACKPOINT

/-- Modelled from the spec: full streamline construction for one seed —
forward pass, independent backward pass with the direction negated, and
concatenation backward-reversed ++ seed ++ forward. -/
def trackSeed (cfg : TrackerConfig) (seed : Pos × Dir) : SeedResult :=
  let fwd := runDir cfg seed.1 seed.2
  let bwd := runDir cfg seed.1 seed.2.neg
  ⟨bwd.points.reverse ++ seed.1 :: fwd.points, termOf fwd, termOf bwd⟩

/-- A termination state that makes a streamline valid. -/
def validTerm (s : StoppingState) : Bool :=
  s = ENDPOINT || s = OUTSIDEIMAGE

/-- A streamline is valid iff both passes terminated validly. -/
def validResult (r : SeedResult) : Bool :=
  validTerm r.fwdTerm && validTerm r.bwdTerm

/-- Modelled from the spec: the `TrackingEngine` — tracks every seed in
input order and, when `return_all` is false, keeps only the valid
streamlines (the dipy `LocalTracking` generator is not in this
repository). -/
def engineTrack (cfg : TrackerConfig) (seeds : List (Pos × Dir))
    (returnAll : Bool) : List SeedResult :=
  if returnAll then seeds.map (trackSeed cfg)
  else (seeds.map (trackSeed cfg)).filter validResult

/-- Embedded from `doc/examples/tracking_tissue_classifier.py` lines
254-257: `background` is 1 exactly at the voxels where the three PVE maps
sum to not more than zero. -/
def background (gm wm csf : ℕ → ℕ → ℕ → ℚ) (i j k : ℕ) : ℚ :=
  if gm i j k + wm i j k + csf i j k > 0 then 0 else 1

/-- Embedded from `doc/examples/tracking_tissue_classifier.py` lines
259-260: the include map is the gray-matter PVE map overwritten with 1 at
the background voxels. -/
def include_map (gm wm csf : ℕ → ℕ → ℕ → ℚ) (i j k : ℕ) : ℚ :=
  if background gm wm csf i j k > 0 then 1 else gm i j k

/-- Concrete fixture: the unit direction along the first axis. -/
def dirX : Dir := ⟨1, 0, 0⟩

/-- Concrete fixture: the origin position. -/
def posO : Pos := ⟨0, 0, 0⟩

/-- Concrete fixture: a position at the center voxel of a 3-cube. -/
def p111 : Pos := ⟨1, 1, 1⟩

/-- Concrete fixture: a 3x3x3 field of all-zero values. -/
def zeroField : Field := ⟨3, 3, 3, fun _ _ _ => 0⟩

/-- Concrete fixture: a 3x3x3 field of all-one values. -/
def oneField : Field := ⟨3, 3, 3, fun _ _ _ => 1⟩

/-- Concrete fixture: a 2x1x1 mask that is true only at the voxel with
first index 1. -/
def stepMask : Mask := ⟨2, 1, 1, fun i _ _ => i == 1⟩

/-- Concrete fixture: a 2x1x1 mask that is true everywhere. -/
def fullMask : Mask := ⟨2, 1, 1, fun _ _ _ => true⟩

/-- Concrete fixture: a position inside voxel 0 but nearest to voxel 1. -/
def pNear : Pos := ⟨9/10, 0, 0⟩

/-- Concrete fixture: a configuration whose direction source always
returns `dirX` and whose criterion never stops. -/
def cfgRun : TrackerConfig := ⟨1, 3, fun _ => TRACKPOINT, fun _ _ => some dirX⟩

/-- Concrete fixture: a configuration whose direction source never returns
a direction. -/
def cfgNoDir : TrackerConfig := ⟨1, 5, fun _ => TRACKPOINT, fun _ _ => none⟩

instance (f : Field) (p : Pos) : Decidable (strictlyInside f p) :=
  inferInstanceAs (Decidable
    (0 < p.x ∧ p.x < (f.dimx : ℚ) - 1 ∧
     0 < p.y ∧ p.y < (f.dimy : ℚ) - 1 ∧
     0 < p.z ∧ p.z < (f.dimz : ℚ) - 1))

lemma lerp_zero (a b : ℚ) : lerp 0 a b = a := by
  simp [lerp]

lemma lerp_self (t c : ℚ) : lerp t c c = c := by
  simp [lerp]; ring

/-- Trilinear interpolation of a constant field yields the constant. -/
lemma trilinear_const (f : Field) (c : ℚ) (h : ∀ i j k, f.data i j k = c)
    (p : Pos) : trilinear f p = c := by
  simp [trilinear, h, lerp_self]

/-- At an integer voxel position the trilinear interpolant is the grid
value at that voxel. -/
lemma trilinear_voxel (f : Field) (i j k : ℕ) :
    trilinear f (voxelPos i j k) = f.data i j k := by
  have hx : frac ((i : ℚ)) = 0 := by simp [frac]
  have hy : frac ((j : ℚ)) = 0 := by simp [frac]
  have hz : frac ((k : ℚ)) = 0 := by simp [frac]
  have cx : cellIdx ((i : ℚ)) = i := by simp [cellIdx]
  have cy : cellIdx ((j : ℚ)) = j := by simp [cellIdx]
  have cz : cellIdx ((k : ℚ)) = k := by simp [cellIdx]
  simp [trilinear, voxelPos, hx, hy, hz, cx, cy, cz, lerp_zero]

/-- A halted machine state is a fixed point of the transition. -/
lemma machineStep_of_halted (cfg : TrackerConfig) (s : MachineState)
    (r : StoppingState) (h : s.status = HALTED r) : machineStep cfg s = s := by
  unfold machineStep
  rw [h]

/-- A halted machine state is a fixed point of any number of transitions. -/
lemma iterate_of_halted (cfg : TrackerConfig) (s : MachineState)
    (r : StoppingState) (h : s.status = HALTED r) (n : ℕ) :
    (machineStep cfg)^[n] s = s := by
  induction n with
  | zero => rfl
  | succ n ih =>
    rw [Function.iterate_succ_apply, machineStep_of_halted cfg s r h, ih]

/-- One transition only appends points. -/
lemma machineStep_points (cfg : TrackerConfig) (s : MachineState) :
    ∃ t, (machineStep cfg s).points = s.points ++ t := by
  unfold machineStep
  split
  · exact ⟨[], by simp⟩
  · split
    · exact ⟨[], by simp⟩
    · split
      · exact ⟨[], by simp⟩
      · split
        · exact ⟨_, rfl⟩
        · exact ⟨_, rfl⟩

/-- Any number of transitions only appends points. -/
lemma iterate_points (cfg : TrackerConfig) (n : ℕ) (s : MachineState) :
    ∃ t, ((machineStep cfg)^[n] s).points = s.points ++ t := by
  induction n generalizing s with
  | zero => exact ⟨[], by simp⟩
  | succ n ih =>
    obtain ⟨t₁, h₁⟩ := machineStep_points cfg s
    obtain ⟨t₂, h₂⟩ := ih (machineStep cfg s)
    exact ⟨t₁ ++ t₂, by
      rw [Function.iterate_succ_apply, h₂, h₁, List.append_assoc]⟩

/-- One transition from an active state either halts or strictly decreases
the remaining budget. -/
lemma machineStep_progress (cfg : TrackerConfig) (s : MachineState)
    (h : s.status = ACTIVE) :
    (∃ r, (machineStep cfg s).status = HALTED r) ∨
    ((machineStep cfg s).status = ACTIVE ∧
      (machineStep cfg s).fuel < s.fuel) := by
  cases hf : s.fuel with
  | zero => exact Or.inl ⟨TRACKPOINT, by simp [machineStep, h, hf]⟩
  | succ m =>
    cases hd : cfg.dirSrc s.pos s.dir with
    | none => exact Or.inl ⟨TRACKPOINT, by simp [machineStep, h, hf, hd]⟩
    | some d =>
      cases hc : cfg.classify (advance s.pos cfg.stepSize d) with
      | TRACKPOINT =>
        refine Or.inr ⟨by simp [machineStep, h, hf, hd, hc], ?_⟩
        simp [machineStep, h, hf, hd, hc]
      | ENDPOINT =>
        exact Or.inl ⟨ENDPOINT, by simp [machineStep, h, hf, hd, hc]⟩
      | OUTSIDEIMAGE =>
        exact Or.inl ⟨OUTSIDEIMAGE, by simp [machineStep, h, hf, hd, hc]⟩
      | INVALIDPOINT =>
        exact Or.inl ⟨INVALIDPOINT, by simp [machineStep, h, hf, hd, hc]⟩

/-- Enough transitions always reach a halted state: the budget bounds the
number of active steps. -/
lemma iterate_halts (cfg : TrackerConfig) :
    ∀ k (s : MachineState), s.fuel < k →
      ∃ r, ((machineStep cfg)^[k] s).status = HALTED r := by
  intro k
  induction k with
  | zero => exact fun s h => absurd h (Nat.not_lt_zero _)
  | succ k ih =>
    intro s h
    rw [Function.iterate_succ_apply]
    cases hs : s.status with
    | HALTED r =>
      refine ⟨r, ?_⟩
      rw [machineStep_of_halted cfg s r hs, iterate_of_halted cfg s r hs, hs]
    | ACTIVE =>
      rcases machineStep_progress cfg s hs with ⟨r, hr⟩ | ⟨ha, hf⟩
      · exact ⟨r, by rw [iterate_of_halted cfg _ r hr, hr]⟩
      · exact ih (machineStep cfg s) (by omega)

/-- With a direction source that always answers and a criterion that never
stops, a full budget of `fuel` is consumed and exactly `fuel` points are
appended before the forced halt. -/
lemma cap_run (cfg : TrackerConfig) (d0 : Dir)
    (hd : ∀ p d, cfg.dirSrc p d = some d0)
    (hc : ∀ p, cfg.classify p = TRACKPOINT) :
    ∀ (fuel : ℕ) (pos : Pos) (dir : Dir) (pts : List Pos),
      ((machineStep cfg)^[fuel + 1]
          ⟨pos, dir, pts, fuel, ACTIVE⟩).points.length = pts.length + fuel ∧
      ((machineStep cfg)^[fuel + 1]
          ⟨pos, dir, pts, fuel, ACTIVE⟩).status = HALTED TRACKPOINT := by
  intro fuel
  induction fuel with
  | zero =>
    intro pos dir pts
    constructor <;> simp [machineStep]
  | succ m ih =>
    intro pos dir pts
    rw [Function.iterate_succ_apply]
    have hstep : machineStep cfg ⟨pos, dir, pts, m + 1, ACTIVE⟩ =
        ⟨advance pos cfg.stepSize d0, d0,
         pts ++ [advance pos cfg.stepSize d0], m, ACTIVE⟩ := by
      simp [machineStep, hd, hc]
    rw [hstep]
    obtain ⟨h₁, h₂⟩ :=
      ih (advance pos cfg.stepSize d0) d0 (pts ++ [advance pos cfg.stepSize d0])
    refine ⟨?_, h₂⟩
    rw [h₁]
    simp
    omega

/-- Two configurations that agree pointwise induce the same machine
transition. -/
lemma machineStep_congr (cfg₁ cfg₂ : TrackerConfig)
    (hs : cfg₁.stepSize = cfg₂.stepSize)
    (hc : ∀ p, cfg₁.classify p = cfg₂.classify p)
    (hd : ∀ p d, cfg₁.dirSrc p d = cfg₂.dirSrc p d) (s : MachineState) :
    machineStep cfg₁ s = machineStep cfg₂ s := by
  unfold machineStep
  simp only [hs, hc, hd]

/-- Pointwise-equal configurations with the same cap produce the same
per-direction run. -/
lemma runDir_congr (cfg₁ cfg₂ : TrackerConfig)
    (hs : cfg₁.stepSize = cfg₂.stepSize) (hm : cfg₁.maxIter = cfg₂.maxIter)
    (hc : ∀ p, cfg₁.classify p = cfg₂.classify p)
    (hd : ∀ p d, cfg₁.dirSrc p d = cfg₂.dirSrc p d) (pos : Pos) (dir : Dir) :
    runDir cfg₁ pos dir = runDir cfg₂ pos dir := by
  have hstep : machineStep cfg₁ = machineStep cfg₂ :=
    funext (machineStep_congr cfg₁ cfg₂ hs hc hd)
  rw [runDir, runDir, hstep, initState, initState, hm]

/-- Pointwise-equal configurations with the same cap produce the same
seed result. -/
lemma trackSeed_congr (cfg₁ cfg₂ : TrackerConfig)
    (hs : cfg₁.stepSize = cfg₂.stepSize) (hm : cfg₁.maxIter = cfg₂.maxIter)
    (hc : ∀ p, cfg₁.classify p = cfg₂.classify p)
    (hd : ∀ p d, cfg₁.dirSrc p d = cfg₂.dirSrc p d) (seed : Pos × Dir) :
    trackSeed cfg₁ seed = trackSeed cfg₂ seed := by
  rw [trackSeed, trackSeed,
    runDir_congr cfg₁ cfg₂ hs hm hc hd seed.1 seed.2,
    runDir_congr cfg₁ cfg₂ hs hm hc hd seed.1 seed.2.neg]

lemma inBounds_zeroField_p111 : inBounds zeroField p111 = true := by
  simp only [inBounds, zeroField, p111, decide_eq_true_eq]
  norm_num

lemma inBounds_oneField_p111 : inBounds oneField p111 = true := by
  simp only [inBounds, oneField, p111, decide_eq_true_eq]
  norm_num

lemma inBounds_zeroField_out : inBounds zeroField ⟨5, 0, 0⟩ = false := by
  simp only [inBounds, zeroField, decide_eq_false_iff_not]
  rintro ⟨-, h, -⟩
  norm_num at h

lemma inBounds_zeroField_out5 : inBounds zeroField ⟨5, 1, 1⟩ = false := by
  simp only [inBounds, zeroField, decide_eq_false_iff_not]
  rintro ⟨-, h, -⟩
  norm_num at h

lemma inBounds_oneField_out5 : inBounds oneField ⟨5, 1, 1⟩ = false := by
  simp only [inBounds, oneField, decide_eq_false_iff_not]
  rintro ⟨-, h, -⟩
  norm_num at h

lemma inBounds_oneField_neg : inBounds oneField ⟨-1, 1, 1⟩ = false := by
  simp only [inBounds, oneField, decide_eq_false_iff_not]
  rintro ⟨h, -⟩
  norm_num at h

lemma maskInBounds_stepMask_pNear : maskInBounds stepMask pNear = true := by
  simp only [maskInBounds, stepMask, pNear, decide_eq_true_eq]
  norm_num

lemma maskInBounds_stepMask_posO : maskInBounds stepMask posO = true := by
  simp only [maskInBounds, stepMask, posO, decide_eq_true_eq]
  norm_num

lemma nearestIdx_nine_tenths : nearestIdx (9/10 : ℚ) = 1 := by
  have h : ⌊(9 : ℚ)/10 + 1/2⌋ = 1 := by
    rw [Int.floor_eq_iff]
    constructor <;> norm_num
  rw [nearestIdx, h]
  rfl

lemma nearestIdx_zero : nearestIdx (0 : ℚ) = 0 := by
  have h : ⌊(0 : ℚ) + 1/2⌋ = 0 := by
    rw [Int.floor_eq_iff]
    constructor <;> norm_num
  rw [nearestIdx, h]
  rfl

lemma nearest_stepMask_pNear : nearest stepMask pNear = true := by
  simp [nearest, stepMask, pNear, nearestIdx_nine_tenths, nearestIdx_zero]

lemma nearest_stepMask_posO : nearest stepMask posO = false := by
  simp [nearest, stepMask, posO, nearestIdx_zero]

lemma stepMask_fullMask_agree :
    stepMask.data (nearestIdx pNear.x) (nearestIdx pNear.y)
      (nearestIdx pNear.z) =
    fullMask.data (nearestIdx pNear.x) (nearestIdx pNear.y)
      (nearestIdx pNear.z) := by
  simp [stepMask, fullMask, pNear, nearestIdx_nine_tenths, nearestIdx_zero]

lemma strictlyInside_zeroField_p111 : strictlyInside zeroField p111 := by
  simp only [strictlyInside, zeroField, p111]
  norm_num

/-- C3: the Threshold classifier returns OUTSIDEIMAGE out of bounds, else
ENDPOINT iff the interpolated value is below the cutoff, else TRACKPOINT;
it never returns INVALIDPOINT; on an all-zero field with cutoff 0.1 every
in-bounds position is ENDPOINT and on an all-one field every in-bounds
position is TRACKPOINT. -/
theorem threshold_classifier_spec :
    (∀ (f : Field) (c : ℚ) (p : Pos), inBounds f p = false →
        thresholdClassify f c p = OUTSIDEIMAGE) ∧
    (∀ (f : Field) (c : ℚ) (p : Pos), inBounds f p = true →
        trilinear f p < c → thresholdClassify f c p = ENDPOINT) ∧
    (∀ (f : Field) (c : ℚ) (p : Pos), inBounds f p = true →
        ¬ trilinear f p < c → thresholdClassify f c p = TRACKPOINT) ∧
    (∀ (f : Field) (c : ℚ) (p : Pos),
        thresholdClassify f c p ≠ INVALIDPOINT) ∧
    (∀ (f : Field) (p : Pos), (∀ i j k, f.data i j k = 0) →
        inBounds f p = true → thresholdClassify f (1/10) p = ENDPOINT) ∧
    (∀ (f : Field) (p : Pos), (∀ i j k, f.data i j k = 1) →
        inBounds f p = true → thresholdClassify f (1/10) p = TRACKPOINT) := by
  refine ⟨?_, ?_, ?_, ?_, ?_, ?_⟩
  · intro f c p h
    simp [thresholdClassify, h]
  · intro f c p h hlt
    simp [thresholdClassify, h, hlt]
  · intro f c p h hge
    simp [thresholdClassify, h, hge]
  · intro f c p
    rw [thresholdClassify]
    split_ifs <;> simp
  · intro f p h0 hb
    rw [thresholdClassify, if_pos hb, trilinear_const f 0 h0 p]
    norm_num
  · intro f p h1 hb
    rw [thresholdClassify, if_pos hb, trilinear_const f 1 h1 p]
    norm_num

/-- C3 witness: concrete evaluations of the Threshold classifier on the
all-zero and all-one 3x3x3 fields. -/
theorem threshold_classifier_spec_witness :
    thresholdClassify zeroField (1/10) p111 = ENDPOINT ∧
    thresholdClassify oneField (1/10) p111 = TRACKPOINT ∧
    thresholdClassify zeroField (1/10) ⟨5, 0, 0⟩ = OUTSIDEIMAGE :=
  ⟨threshold_classifier_spec.2.2.2.2.1 zeroField p111 (fun _ _ _ => rfl)
      inBounds_zeroField_p111,
   threshold_classifier_spec.2.2.2.2.2 oneField p111 (fun _ _ _ => rfl)
      inBounds_oneField_p111,
   threshold_classifier_spec.1 zeroField (1/10) ⟨5, 0, 0⟩
      inBounds_zeroField_out⟩

/-- C4: the Binary classifier returns OUTSIDEIMAGE out of bounds, else
ENDPOINT iff the mask is false at the nearest-neighbor cell, else
TRACKPOINT; it never returns INVALIDPOINT; and its decision depends only
on the single nearest grid cell (two masks of equal shape agreeing at that
cell classify identically, with no interpolation). -/
theorem binary_classifier_spec :
    (∀ (m : Mask) (p : Pos), maskInBounds m p = false →
        binaryClassify m p = OUTSIDEIMAGE) ∧
    (∀ (m : Mask) (p : Pos), maskInBounds m p = true →
        nearest m p = false → binaryClassify m p = ENDPOINT) ∧
    (∀ (m : Mask) (p : Pos), maskInBounds m p = true →
        nearest m p = true → binaryClassify m p = TRACKPOINT) ∧
    (∀ (m : Mask) (p : Pos), binaryClassify m p ≠ INVALIDPOINT) ∧
    (∀ (m₁ m₂ : Mask) (p : Pos), m₁.dimx = m₂.dimx → m₁.dimy = m₂.dimy →
        m₁.dimz = m₂.dimz →
        m₁.data (nearestIdx p.x) (nearestIdx p.y) (nearestIdx p.z) =
          m₂.data (nearestIdx p.x) (nearestIdx p.y) (nearestIdx p.z) →
        binaryClassify m₁ p = binaryClassify m₂ p) := by
  refine ⟨?_, ?_, ?_, ?_, ?_⟩
  · intro m p h
    simp [binaryClassify, h]
  · intro m p h hn
    simp [binaryClassify, h, hn]
  · intro m p h hn
    simp [binaryClassify, h, hn]
  · intro m p
    rw [binaryClassify]
    split_ifs <;> simp
  · intro m₁ m₂ p h1 h2 h3 h4
    simp only [binaryClassify, maskInBounds, nearest, h1, h2, h3, h4]

/-- C4 witness: the 2x1x1 step mask at the position 0.9 (inside voxel 0,
nearest to voxel 1) classifies from the nearest cell, and agrees with the
all-true mask that matches it at that cell. -/
theorem binary_classifier_spec_witness :
    binaryClassify stepMask pNear = TRACKPOINT ∧
    binaryClassify stepMask posO = ENDPOINT ∧
    binaryClassify stepMask pNear = binaryClassify fullMask pNear :=
  ⟨binary_classifier_spec.2.2.1 stepMask pNear maskInBounds_stepMask_pNear
      nearest_stepMask_pNear,
   binary_classifier_spec.2.1 stepMask posO maskInBounds_stepMask_posO
      nearest_stepMask_posO,
   binary_classifier_spec.2.2.2.2 stepMask fullMask pNear rfl rfl rfl
      stepMask_fullMask_agree⟩

/-- C1: the ACT classifier returns OUTSIDEIMAGE when either map is out of
bounds; else INVALIDPOINT whenever the exclude-map interpolant exceeds 0.5
regardless of the include-map value; else ENDPOINT when the include-map
interpolant exceeds 0.5; else TRACKPOINT; in particular include = exclude
= 1.0 yields INVALIDPOINT (exclude precedence). -/
theorem act_classifier_spec :
    (∀ (inc exc : Field) (p : Pos),
        (inBounds inc p = false ∨ inBounds exc p = false) →
        actClassify inc exc p = OUTSIDEIMAGE) ∧
    (∀ (inc exc : Field) (p : Pos), inBounds inc p = true →
        inBounds exc p = true → 1/2 < trilinear exc p →
        actClassify inc exc p = INVALIDPOINT) ∧
    (∀ (inc exc : Field) (p : Pos), inBounds inc p = true →
        inBounds exc p = true → ¬ 1/2 < trilinear exc p →
        1/2 < trilinear inc p → actClassify inc exc p = ENDPOINT) ∧
    (∀ (inc exc : Field) (p : Pos), inBounds inc p = true →
        inBounds exc p = true → ¬ 1/2 < trilinear exc p →
        ¬ 1/2 < trilinear inc p → actClassify inc exc p = TRACKPOINT) ∧
    (∀ (inc exc : Field) (p : Pos), inBounds inc p = true →
        inBounds exc p = true → trilinear inc p = 1 → trilinear exc p = 1 →
        actClassify inc exc p = INVALIDPOINT) := by
  refine ⟨?_, ?_, ?_, ?_, ?_⟩
  · intro inc exc p h
    rcases h with h | h <;> simp [actClassify, h]
  · intro inc exc p h1 h2 he
    rw [actClassify, h1, h2, if_pos (show (true && true) = true from rfl),
      if_pos he]
  · intro inc exc p h1 h2 he hi
    rw [actClassify, h1, h2, if_pos (show (true && true) = true from rfl),
      if_neg he, if_pos hi]
  · intro inc exc p h1 h2 he hi
    rw [actClassify, h1, h2, if_pos (show (true && true) = true from rfl),
      if_neg he, if_neg hi]
  · intro inc exc p h1 h2 hi he
    rw [actClassify, h1, h2]
    rw [hi, he]
    norm_num

/-- C1 witness: the ACT classifier on constant-one include and exclude
maps at the center voxel returns INVALIDPOINT. -/
theorem act_classifier_spec_witness :
    actClassify oneField oneField p111 = INVALIDPOINT :=
  act_classifier_spec.2.2.2.2 oneField oneField p111 inBounds_oneField_p111
    inBounds_oneField_p111
    (trilinear_const oneField 1 (fun _ _ _ => rfl) p111)
    (trilinear_const oneField 1 (fun _ _ _ => rfl) p111)

/-- C5: the volume sampler reports in-bounds for every position strictly
inside the field bounds; any coordinate at or beyond the dimension size or
below zero makes it report out of bounds with no value; and the bounds
decision reads no grid data (it depends only on the dimensions), so no
grid element is accessed on the out-of-bounds path. -/
theorem volume_sampler_bounds :
    (∀ (f : Field) (p : Pos), strictlyInside f p →
        (sample f p).isSome = true) ∧
    (∀ (f : Field) (p : Pos),
        ((f.dimx : ℚ) ≤ p.x ∨ p.x < 0 ∨ (f.dimy : ℚ) ≤ p.y ∨ p.y < 0 ∨
          (f.dimz : ℚ) ≤ p.z ∨ p.z < 0) → sample f p = none) ∧
    (∀ (f g : Field) (p : Pos), f.dimx = g.dimx → f.dimy = g.dimy →
        f.dimz = g.dimz → inBounds f p = inBounds g p) ∧
    (∀ (f : Field) (p : Pos), inBounds f p = false → sample f p = none) := by
  refine ⟨?_, ?_, ?_, ?_⟩
  · intro f p h
    obtain ⟨h1, h2, h3, h4, h5, h6⟩ := h
    have hb : inBounds f p = true := by
      simp only [inBounds, decide_eq_true_eq]
      exact ⟨h1.le, h2.le, h3.le, h4.le, h5.le, h6.le⟩
    simp [sample, hb]
  · intro f p h
    have hb : inBounds f p = false := by
      simp only [inBounds, decide_eq_false_iff_not]
      rintro ⟨c1, c2, c3, c4, c5, c6⟩
      rcases h with h | h | h | h | h | h <;> linarith
    simp [sample, hb]
  · intro f g p h1 h2 h3
    simp only [inBounds, h1, h2, h3]
  · intro f p h
    simp [sample, h]

/-- C5 witness: concrete in-bounds, out-of-bounds and data-independence
evaluations of the sampler on the 3x3x3 fixtures. -/
theorem volume_sampler_bounds_witness :
    (sample zeroField p111).isSome = true ∧
    sample zeroField ⟨5, 1, 1⟩ = none ∧
    inBounds zeroField ⟨5, 1, 1⟩ = inBounds oneField ⟨5, 1, 1⟩ ∧
    sample oneField ⟨-1, 1, 1⟩ = none :=
  ⟨volume_sampler_bounds.1 zeroField p111 strictlyInside_zeroField_p111,
   volume_sampler_bounds.2.1 zeroField ⟨5, 1, 1⟩
      (Or.inl (by norm_num [zeroField])),
   volume_sampler_bounds.2.2.1 zeroField oneField ⟨5, 1, 1⟩ rfl rfl rfl,
   volume_sampler_bounds.2.2.2 oneField ⟨-1, 1, 1⟩ inBounds_oneField_neg⟩

/-- C2: for every configuration and seed list, the return-all=false output
is a sublist of the return-all=true output, and it contains exactly the
streamlines whose forward and backward terminations are both in
{ENDPOINT, OUTSIDEIMAGE}; those with a TRACKPOINT or INVALIDPOINT
termination are discarded when return-all is false and yielded when it is
true. -/
theorem engine_return_all_filter :
    ∀ (cfg : TrackerConfig) (seeds : List (Pos × Dir)),
      (engineTrack cfg seeds false).Sublist (engineTrack cfg seeds true) ∧
      (∀ r : SeedResult, r ∈ engineTrack cfg seeds false ↔
        (r ∈ engineTrack cfg seeds true ∧
          (r.fwdTerm = ENDPOINT ∨ r.fwdTerm = OUTSIDEIMAGE) ∧
          (r.bwdTerm = ENDPOINT ∨ r.bwdTerm = OUTSIDEIMAGE))) := by
  intro cfg seeds
  have hf : engineTrack cfg seeds false =
      (seeds.map (trackSeed cfg)).filter validResult := rfl
  have ht : engineTrack cfg seeds true = seeds.map (trackSeed cfg) := rfl
  rw [hf, ht]
  constructor
  · exact List.filter_sublist _
  · intro r
    rw [List.mem_filter]
    simp [validResult, validTerm, and_assoc]

/-- C6: the per-direction tracker always halts within its iteration
budget; a direction source that always answers with a fixed direction on a
criterion with no stopping region yields a streamline of exactly the
configured cap of points, terminated HALTED TRACKPOINT (never surfaced as
a failure). -/
theorem tracker_termination_cap :
    (∀ (cfg : TrackerConfig) (k : ℕ) (s : MachineState), s.fuel < k →
        ∃ r, ((machineStep cfg)^[k] s).status = HALTED r) ∧
    (∀ (cfg : TrackerConfig) (pos : Pos) (dir : Dir),
        ∃ r, (runDir cfg pos dir).status = HALTED r) ∧
    (∀ (cfg : TrackerConfig) (d0 : Dir) (pos : Pos) (dir : Dir),
        (∀ p d, cfg.dirSrc p d = some d0) →
        (∀ p, cfg.classify p = TRACKPOINT) →
        (runDir cfg pos dir).points.length = cfg.maxIter ∧
        (runDir cfg pos dir).status = HALTED TRACKPOINT) := by
  refine ⟨fun cfg => iterate_halts cfg, ?_, ?_⟩
  · intro cfg pos dir
    exact iterate_halts cfg (cfg.maxIter + 1) (initState cfg pos dir)
      (by simp [initState])
  · intro cfg d0 pos dir hd hc
    obtain ⟨h1, h2⟩ := cap_run cfg d0 hd hc cfg.maxIter pos dir []
    constructor
    · simpa [runDir, initState] using h1
    · simpa [runDir, initState] using h2

/-- C6 witness: the fixed-direction, never-stopping configuration with cap
3 halts and produces exactly 3 points with termination TRACKPOINT. -/
theorem tracker_termination_cap_witness :
    (∃ r, ((machineStep cfgRun)^[3]
        ⟨posO, dirX, [], 2, ACTIVE⟩).status = HALTED r) ∧
    (runDir cfgRun posO dirX).points.length = cfgRun.maxIter ∧
    (runDir cfgRun posO dirX).status = HALTED TRACKPOINT :=
  ⟨tracker_termination_cap.1 cfgRun 3 ⟨posO, dirX, [], 2, ACTIVE⟩
      (by norm_num),
   (tracker_termination_cap.2.2 cfgRun dirX posO dirX (fun _ _ => rfl)
      (fun _ => rfl)).1,
   (tracker_termination_cap.2.2 cfgRun dirX posO dirX (fun _ _ => rfl)
      (fun _ => rfl)).2⟩

/-- C7: a halted per-direction tracker state is final (no further
transition changes it, for any number of steps), and every transition only
appends points, so the point sequence of any later state extends that of
any earlier state. -/
theorem tracker_halt_permanent :
    (∀ (cfg : TrackerConfig) (s : MachineState) (r : StoppingState),
        s.status = HALTED r → machineStep cfg s = s) ∧
    (∀ (cfg : TrackerConfig) (s : MachineState) (r : StoppingState) (n : ℕ),
        s.status = HALTED r → (machineStep cfg)^[n] s = s) ∧
    (∀ (cfg : TrackerConfig) (s : MachineState),
        ∃ t, (machineStep cfg s).points = s.points ++ t) ∧
    (∀ (cfg : TrackerConfig) (n : ℕ) (s : MachineState),
        ∃ t, ((machineStep cfg)^[n] s).points = s.points ++ t) ∧
    (∀ (cfg : TrackerConfig) (s : MachineState) (m n : ℕ), m ≤ n →
        ∃ t, ((machineStep cfg)^[n] s).points =
          ((machineStep cfg)^[m] s).points ++ t) := by
  refine ⟨machineStep_of_halted, ?_, machineStep_points, iterate_points, ?_⟩
  · intro cfg s r n h
    exact iterate_of_halted cfg s r h n
  · intro cfg s m n hmn
    obtain ⟨k, rfl⟩ := Nat.exists_eq_add_of_le hmn
    rw [Nat.add_comm, Function.iterate_add_apply]
    exact iterate_points cfg k ((machineStep cfg)^[m] s)

/-- C7 witness: a concrete halted state is unchanged by one and by four
transitions, and a later iterate of a concrete run extends an earlier
one. -/
theorem tracker_halt_permanent_witness :
    machineStep cfgNoDir ⟨posO, dirX, [posO], 2, HALTED ENDPOINT⟩ =
      ⟨posO, dirX, [posO], 2, HALTED ENDPOINT⟩ ∧
    (machineStep cfgNoDir)^[4] ⟨posO, dirX, [posO], 2, HALTED ENDPOINT⟩ =
      ⟨posO, dirX, [posO], 2, HALTED ENDPOINT⟩ ∧
    (∃ t, ((machineStep cfgRun)^[3] (initState cfgRun posO dirX)).points =
      ((machineStep cfgRun)^[1] (initState cfgRun posO dirX)).points ++ t) :=
  ⟨tracker_halt_permanent.1 cfgNoDir _ ENDPOINT rfl,
   tracker_halt_permanent.2.1 cfgNoDir _ ENDPOINT 4 rfl,
   tracker_halt_permanent.2.2.2.2 cfgRun (initState cfgRun posO dirX) 1 3
      (by norm_num)⟩

/-- C8: from an ACTIVE state whose direction source returns no direction,
one transition halts with reason TRACKPOINT, appends nothing, and leaves
the position unchanged — no error is raised (the transition is total). -/
theorem tracker_no_direction_halts (cfg : TrackerConfig) (s : MachineState)
    (h : s.status = ACTIVE) (hd : cfg.dirSrc s.pos s.dir = none) :
    (machineStep cfg s).points = s.points ∧
    (machineStep cfg s).status = HALTED TRACKPOINT ∧
    (machineStep cfg s).pos = s.pos := by
  cases hf : s.fuel with
  | zero => refine ⟨?_, ?_, ?_⟩ <;> simp [machineStep, h, hf]
  | succ m => refine ⟨?_, ?_, ?_⟩ <;> simp [machineStep, h, hf, hd]

/-- C8 witness: the never-answering configuration halts a concrete active
state with TRACKPOINT, leaving its streamline empty. -/
theorem tracker_no_direction_halts_witness :
    (machineStep cfgNoDir ⟨posO, dirX, [], 5, ACTIVE⟩).points = [] ∧
    (machineStep cfgNoDir ⟨posO, dirX, [], 5, ACTIVE⟩).status =
      HALTED TRACKPOINT ∧
    (machineStep cfgNoDir ⟨posO, dirX, [], 5, ACTIVE⟩).pos = posO :=
  tracker_no_direction_halts cfgNoDir ⟨posO, dirX, [], 5, ACTIVE⟩ rfl rfl

/-- C9: the tracking engine is a deterministic function of seeds, fields
and configuration — two runs whose configurations agree pointwise and
whose seeds and policy are equal produce identical output. -/
theorem tracking_deterministic
    (cfg₁ cfg₂ : TrackerConfig) (seeds₁ seeds₂ : List (Pos × Dir))
    (ra₁ ra₂ : Bool)
    (hs : cfg₁.stepSize = cfg₂.stepSize) (hm : cfg₁.maxIter = cfg₂.maxIter)
    (hc : ∀ p, cfg₁.classify p = cfg₂.classify p)
    (hd : ∀ p d, cfg₁.dirSrc p d = cfg₂.dirSrc p d)
    (hseeds : seeds₁ = seeds₂) (hra : ra₁ = ra₂) :
    engineTrack cfg₁ seeds₁ ra₁ = engineTrack cfg₂ seeds₂ ra₂ := by
  subst hseeds
  subst hra
  have ht : trackSeed cfg₁ = trackSeed cfg₂ :=
    funext (trackSeed_congr cfg₁ cfg₂ hs hm hc hd)
  rw [engineTrack, engineTrack, ht]

/-- C9 witness: two runs of the engine on the same concrete configuration
and seed produce identical output. -/
theorem tracking_deterministic_witness :
    engineTrack cfgRun [(posO, dirX)] true =
      engineTrack cfgRun [(posO, dirX)] true :=
  tracking_deterministic cfgRun cfgRun [(posO, dirX)] [(posO, dirX)]
    true true rfl rfl (fun _ => rfl) (fun _ _ => rfl) rfl rfl

/-- C10: the include map equals 1 at every voxel where the three PVE maps
sum to not more than zero (the anatomical background) and equals the
gray-matter value elsewhere; consequently, with nonnegative PVE maps,
every in-bounds background voxel position classifies as ENDPOINT under the
ACT classifier built from this include map and the CSF exclude map. -/
theorem include_map_background_spec :
    (∀ (gm wm csf : ℕ → ℕ → ℕ → ℚ) (i j k : ℕ),
        gm i j k + wm i j k + csf i j k ≤ 0 →
        include_map gm wm csf i j k = 1) ∧
    (∀ (gm wm csf : ℕ → ℕ → ℕ → ℚ) (i j k : ℕ),
        0 < gm i j k + wm i j k + csf i j k →
        include_map gm wm csf i j k = gm i j k) ∧
    (∀ (gm wm csf : ℕ → ℕ → ℕ → ℚ) (dx dy dz i j k : ℕ),
        (∀ a b c, 0 ≤ gm a b c) → (∀ a b c, 0 ≤ wm a b c) →
        (∀ a b c, 0 ≤ csf a b c) →
        gm i j k + wm i j k + csf i j k ≤ 0 →
        inBounds ⟨dx, dy, dz, include_map gm wm csf⟩ (voxelPos i j k) =
          true →
        actClassify ⟨dx, dy, dz, include_map gm wm csf⟩ ⟨dx, dy, dz, csf⟩
          (voxelPos i j k) = ENDPOINT) := by
  refine ⟨?_, ?_, ?_⟩
  · intro gm wm csf i j k h
    unfold include_map background
    rw [if_neg (not_lt.mpr h)]
    norm_num
  · intro gm wm csf i j k h
    unfold include_map background
    rw [if_pos h]
    norm_num
  · intro gm wm csf dx dy dz i j k hgm hwm hcsf hsum hb
    have hcsf0 : csf i j k = 0 := by
      have h1 := hgm i j k
      have h2 := hwm i j k
      have h3 := hcsf i j k
      linarith
    have hinc : include_map gm wm csf i j k = 1 := by
      unfold include_map background
      rw [if_neg (not_lt.mpr hsum)]
      norm_num
    have hb2 : inBounds ⟨dx, dy, dz, csf⟩ (voxelPos i j k) = true := hb
    rw [actClassify, hb, hb2,
      if_pos (show (true && true) = true from rfl)]
    simp only [trilinear_voxel]
    rw [hcsf0, hinc]
    norm_num

/-- C10 witness: with all-zero PVE maps on a 1-voxel grid, the origin is
background, the include map is 1 there, and the ACT classifier returns
ENDPOINT. -/
theorem include_map_background_spec_witness :
    include_map (fun _ _ _ => 0) (fun _ _ _ => 0) (fun _ _ _ => 0) 0 0 0
      = 1 ∧
    actClassify
      ⟨1, 1, 1, include_map (fun _ _ _ => 0) (fun _ _ _ => 0)
        (fun _ _ _ => 0)⟩
      ⟨1, 1, 1, fun _ _ _ => 0⟩ (voxelPos 0 0 0) = ENDPOINT :=
  ⟨include_map_background_spec.1 (fun _ _ _ => 0) (fun _ _ _ => 0)
      (fun _ _ _ => 0) 0 0 0 (by norm_num),
   include_map_background_spec.2.2 (fun _ _ _ => 0) (fun _ _ _ => 0)
      (fun _ _ _ => 0) 1 1 1 0 0 0 (fun _ _ _ => le_refl 0)
      (fun _ _ _ => le_refl 0) (fun _ _ _ => le_refl 0) (by norm_num)
      (by simp only [inBounds, voxelPos, decide_eq_true_eq]; norm_num)⟩

end Tracking
